import Mathlib

/-!
Verification of the subscription dispatch engine of `src/lib/serverCore.js`
(serverless-appsync-offline).

The embedding models JavaScript values as a small inductive type `JSValue`
(null, undefined, booleans, numbers, strings, plain objects).  Numbers are
modelled as integers (the source never relies on fractional or NaN
semantics); objects are lists of string-keyed fields in property-enumeration
order (the order `Object.entries` reports).  Strict equality `===` on two
distinct objects is reference inequality, hence `false`: the two sides of
every comparison in the source (an engine-produced payload and a
client-supplied variable value) are always distinct references.

Fallible JavaScript expressions (property access on null/undefined,
`Object.entries` of null/undefined, `undefined.pop()`) are modelled in the
`Except JSError` monad.
-/

inductive JSError where
  | typeError
deriving DecidableEq

inductive JSValue where
  | null
  | undefined
  | bool (b : Bool)
  | num (n : Int)
  | str (s : String)
  | obj (fields : List (String × JSValue))

/-- Assoc-list lookup, first match wins (a JS object has no duplicate keys;
the list order is the property-enumeration order). -/
def lookupAssoc {α : Type} : List (String × α) → String → Option α
  | [], _ => none
  | (k', v) :: rest, k => if k' = k then some v else lookupAssoc rest k

/-- JS `x == null`: true exactly for `null` and `undefined`. -/
def jsEqNull : JSValue → Bool
  | .null => true
  | .undefined => true
  | _ => false

/-- JS `typeof x === 'object'`: true for objects and for `null`
(`typeof null` is `'object'`). -/
def isObjectType : JSValue → Bool
  | .null => true
  | .obj _ => true
  | _ => false

/-- JS truthiness. -/
def jsTruthy : JSValue → Bool
  | .null => false
  | .undefined => false
  | .bool b => b
  | .num n => n != 0
  | .str s => s != ""
  | .obj _ => true

/-- Index/character entries of a string, as `Object.entries` reports them
for a string value: `[("0", first char), ("1", second char), ...]`. -/
def strEntries : List Char → Nat → List (String × JSValue)
  | [], _ => []
  | c :: rest, i => (toString i, .str (String.singleton c)) :: strEntries rest (i + 1)

/-- Total property access for a non-nullish receiver: own data properties of
objects; `length` and index properties of strings; `undefined` otherwise
(numbers and booleans have no own properties; inherited prototype methods
are functions, which never compare `===`-equal to any value of this
universe, so modelling them as `undefined` preserves every comparison the
source performs on non-`undefined` right-hand sides). -/
def getPropTotal : JSValue → String → JSValue
  | .obj fs, k => (lookupAssoc fs k).getD .undefined
  | .str s, k =>
    if k = "length" then .num s.length
    else (lookupAssoc (strEntries s.data 0) k).getD .undefined
  | _, _ => .undefined

/-- JS property access `v[k]`: throws `TypeError` when the receiver is
`null` or `undefined`. -/
def getProp (v : JSValue) (k : String) : Except JSError JSValue :=
  match v with
  | .null => .error .typeError
  | .undefined => .error .typeError
  | _ => .ok (getPropTotal v k)

/-- JS `Object.entries(v)`: throws on `null`/`undefined`; fields of an
object; index/character pairs of a string; `[]` for numbers and booleans. -/
def jsEntries : JSValue → Except JSError (List (String × JSValue))
  | .null => .error .typeError
  | .undefined => .error .typeError
  | .obj fs => .ok fs
  | .str s => .ok (strEntries s.data 0)
  | _ => .ok []

/-- JS strict equality `===` restricted to this value universe.  Two object
values are distinct references in every comparison the source performs,
hence `false`. -/
def strictEq : JSValue → JSValue → Bool
  | .null, .null => true
  | .undefined, .undefined => true
  | .bool a, .bool b => a == b
  | .num a, .num b => a == b
  | .str a, .str b => a == b
  | _, _ => false

/-- JS `Array.prototype.every` over a fallible predicate: stops at the
first `false` or the first thrown error. -/
def jsEvery {α : Type} (f : α → Except JSError Bool) : List α → Except JSError Bool
  | [] => .ok true
  | x :: xs =>
    match f x with
    | .error e => .error e
    | .ok false => .ok false
    | .ok true => jsEvery f xs

/-- `shouldPublishSubscription(payload, variables)` from
`src/lib/serverCore.js` lines 24-54.  Guard: `payload == null ||
(typeof payload === 'object' && payload.data == null)` returns `false`;
empty `variables` returns `true`; otherwise
`Object.entries(payload.data)[0].pop()` extracts the first field's value
(`TypeError` when `payload.data` is nullish, and `undefined.pop()` is a
`TypeError` when the entry list is empty), then every
`(variableKey, variableValue)` pair must satisfy
`payloadData[variableKey] === variableValue`.  (The source's parameter
`variables` is named `vars` here; `variables` is a reserved word.) -/
def shouldPublishSubscription (payload : JSValue)
    (vars : List (String × JSValue)) : Except JSError Bool :=
  if jsEqNull payload || (isObjectType payload && jsEqNull (getPropTotal payload "data")) then
    .ok false
  else if vars.isEmpty then
    .ok true
  else
    match jsEntries (getPropTotal payload "data") with
    | .error e => .error e
    | .ok entries =>
      match entries.head? with
      | none => .error .typeError
      | some en =>
        jsEvery (fun kv =>
          match getProp en.2 kv.1 with
          | .error e => .error e
          | .ok sub => .ok (strictEq sub kv.2)) vars

example : shouldPublishSubscription .null [("id", .num 1)] = .ok false := rfl
example : shouldPublishSubscription (.obj [("data", .null)]) [("id", .num 1)] = .ok false := rfl
example : shouldPublishSubscription (.obj [("data", .obj [("f", .num 3)])]) [] = .ok true := rfl
example : shouldPublishSubscription (.obj [("data", .obj [])]) [("id", .num 1)] = .error .typeError := rfl
example : shouldPublishSubscription (.obj [("data", .obj [("f", .null)])]) [("id", .num 1)] = .error .typeError := rfl
example :
    shouldPublishSubscription
      (.obj [("data", .obj [("onCreate", .obj [("id", .str "2")])])])
      [("id", .str "2")] = .ok true := rfl
example :
    shouldPublishSubscription
      (.obj [("data", .obj [("onCreate", .obj [("id", .str "1")])])])
      [("id", .str "2")] = .ok false := rfl

/-!
The `SubscriptionServer` state machine (`src/lib/serverCore.js` lines
21-22 and 56-256).  Handlers run to completion between events (the source's
single-threaded cooperative model with finite event streams); the async
iterator produced by the reactive query engine is modelled as a finite
event list with a cursor and a `closed` flag (`return()` sets `closed`, and
the next `next()` then reports `done`).  Each stream carries a generation
number `gen`, standing for the identity of the iterator object, so that the
liveness-timer closure (which captures a specific iterator) cancels exactly
the iterator it captured and not a later replacement.
-/

def TopicExpires : Nat := 1000 * 60 * 100

def ConnectTimeout : Nat := 1000 * 60 * 2

structure EventStream where
  events : List JSValue
  pos : Nat
  closed : Bool
  gen : Nat

structure Registration where
  topicId : String
  vars : List (String × JSValue)
  isRegistered : Bool
  asyncIterator : EventStream

/-- One `setTimeout` handle per client (`this.iteratorTimeout`): armed with
delay `ConnectTimeout`, the callback closes the iterator of generation
`gen` belonging to topic `topicId`; `clearTimeout` makes it inert
(`active = false`) without removing the map entry, as in the source. -/
structure TimerEntry where
  topicId : String
  gen : Nat
  delayMs : Nat
  active : Bool

structure ServerState where
  registrations : List (String × List Registration)
  iteratorTimeout : List (String × TimerEntry)
  nextGen : Nat

/-- `Map.set`: replace the value of an existing key in place, else append. -/
def setAssoc {α : Type} : List (String × α) → String → α → List (String × α)
  | [], k, v => [(k, v)]
  | (k', v') :: rest, k, v =>
    if k' = k then (k, v) :: rest else (k', v') :: setAssoc rest k v

/-- Result of `subscribe(...)` from the reactive query engine: either an
async iterator (its future events), or an error result object carrying
`errors` and `data` fields. -/
inductive EngineResult where
  | stream (events : List JSValue)
  | errs (errors : List String) (data : JSValue)

/-- The caller's context: `jwt.sub` names the client; `appsyncErrors` is
the `context.appsyncErrors` slot that resolvers may have filled by the time
`register` builds its error response. -/
structure Context where
  jwtSub : String
  appsyncErrors : Option (List String)

structure Publish where
  topic : String
  payload : JSValue
  qos : Nat
  retain : Bool

/-- Output of one handler invocation: the new server state, the
`mqttServer.publish` calls it issued in order, whether it threw
(`errored`), and whether control reached the consumption `while` loop
(`enteredLoop`). -/
structure StepOut where
  state : ServerState
  publishes : List Publish
  errored : Bool
  enteredLoop : Bool

structure DrainOut where
  pubs : List Publish
  consumed : Nat
  errored : Bool

/-- The consumption `while` loop of `onClientSubscribed` (lines 120-141)
over the remaining events of the iterator: each pulled event is filtered by
`shouldPublishSubscription` and published on a pass; a thrown `TypeError`
aborts the loop (`errored`), having consumed the offending event. -/
def drainAux (vs : List (String × JSValue)) (topicId : String) :
    List JSValue → DrainOut
  | [] => ⟨[], 0, false⟩
  | p :: rest =>
    match shouldPublishSubscription p vs with
    | .error _ => ⟨[], 1, true⟩
    | .ok false =>
      let d := drainAux vs topicId rest
      ⟨d.pubs, d.consumed + 1, d.errored⟩
    | .ok true =>
      let d := drainAux vs topicId rest
      ⟨⟨topicId, p, 0, false⟩ :: d.pubs, d.consumed + 1, d.errored⟩

/-- Replace the first list element satisfying `p` (the source mutates the
found registration object in place inside the client's array). -/
def replaceFirst {α : Type} (p : α → Bool) (x : α) : List α → List α
  | [] => []
  | y :: ys => if p y then x :: ys else y :: replaceFirst p x ys

def findReg (st : ServerState) (clientId topicId : String) : Option Registration :=
  match lookupAssoc st.registrations clientId with
  | none => none
  | some regs => regs.find? (fun r => r.topicId == topicId)

/-- Write back an updated registration object for `(clientId, topicId)`. -/
def updateReg (st : ServerState) (clientId topicId : String)
    (reg' : Registration) : ServerState :=
  match lookupAssoc st.registrations clientId with
  | none => st
  | some regs =>
    let regs' := replaceFirst (fun r => r.topicId == topicId) reg' regs
    { st with registrations := setAssoc st.registrations clientId regs' }

/-- Run the consumption loop for `reg` and write the advanced iterator
cursor back to the store. -/
def runLoop (st : ServerState) (clientId : String) (reg : Registration) : StepOut :=
  let remaining :=
    if reg.asyncIterator.closed then [] else reg.asyncIterator.events.drop reg.asyncIterator.pos
  let d := drainAux reg.vars reg.topicId remaining
  let it' := { reg.asyncIterator with pos := reg.asyncIterator.pos + d.consumed }
  let reg' := { reg with asyncIterator := it' }
  ⟨updateReg st clientId reg.topicId reg', d.pubs, d.errored, true⟩

/-- `onClientSubscribed(topic, client)` (lines 85-142).  Unknown client or
topic: log and return.  A registration with `isRegistered = false` first
gets a fresh iterator from the engine (`engine` is the result the engine
would yield for this attempt); engine errors log and return.  In every
non-early-return case control falls through to the consumption loop —
there is no `isRegistered` check guarding the loop itself. -/
def onClientSubscribed (st : ServerState) (topic clientId : String)
    (engine : EngineResult) : StepOut :=
  match lookupAssoc st.registrations clientId with
  | none => ⟨st, [], false, false⟩
  | some regs =>
    match regs.find? (fun r => r.topicId == topic) with
    | none => ⟨st, [], false, false⟩
    | some reg =>
      if reg.isRegistered then
        runLoop st clientId reg
      else
        match engine with
        | .errs _ _ => ⟨st, [], false, false⟩
        | .stream evs =>
          let reg' := { reg with
            asyncIterator := ⟨evs, 0, false, st.nextGen⟩,
            isRegistered := true }
          let st' := { updateReg st clientId topic reg' with nextGen := st.nextGen + 1 }
          runLoop st' clientId reg'

/-- State change of `onClientUnsubscribed(topic, client)` (lines 144-166):
unknown client or topic logs and returns; otherwise
`reg.asyncIterator.return()` closes the stream and `isRegistered` is
cleared, the registration staying in the store so the client can
resubscribe. -/
def unsubscribeState (st : ServerState) (topic clientId : String) : ServerState :=
  match lookupAssoc st.registrations clientId with
  | none => st
  | some regs =>
    match regs.find? (fun r => r.topicId == topic) with
    | none => st
    | some reg =>
      let reg' := { reg with
        asyncIterator := { reg.asyncIterator with closed := true },
        isRegistered := false }
      updateReg st clientId topic reg'

/-- `onClientUnsubscribed` never publishes, never throws, never enters a
consumption loop. -/
def onClientUnsubscribed (st : ServerState) (topic clientId : String) : StepOut :=
  ⟨unsubscribeState st topic clientId, [], false, false⟩

/-- State change of `onClientConnect(client)` (lines 76-83): `clearTimeout`
on the client's liveness timer, if any; the map entry is not removed. -/
def connectState (st : ServerState) (clientId : String) : ServerState :=
  match lookupAssoc st.iteratorTimeout clientId with
  | none => st
  | some t =>
    let timers' := setAssoc st.iteratorTimeout clientId { t with active := false }
    { st with iteratorTimeout := timers' }

def onClientConnect (st : ServerState) (clientId : String) : StepOut :=
  ⟨connectState st clientId, [], false, false⟩

/-- `onClientDisconnect(client)` (lines 168-175): only logs. -/
def onClientDisconnect (st : ServerState) (_clientId : String) : StepOut :=
  ⟨st, [], false, false⟩

/-- State change of the liveness timer firing (the `setTimeout` callback
armed in `register`, lines 209-214): it can fire only while armed and not
cleared, and it calls `return()` on the iterator object it captured —
modelled by closing the stream of the timer's topic exactly when that
registration still holds the captured generation. -/
def fireTimeoutState (st : ServerState) (clientId : String) : ServerState :=
  match lookupAssoc st.iteratorTimeout clientId with
  | none => st
  | some t =>
    if t.active then
      let timers' := setAssoc st.iteratorTimeout clientId { t with active := false }
      let st1 := { st with iteratorTimeout := timers' }
      match findReg st1 clientId t.topicId with
      | none => st1
      | some reg =>
        if reg.asyncIterator.gen == t.gen then
          let reg' := { reg with asyncIterator := { reg.asyncIterator with closed := true } }
          updateReg st1 clientId t.topicId reg'
        else st1
    else st

def fireTimeout (st : ServerState) (clientId : String) : StepOut :=
  ⟨fireTimeoutState st clientId, [], false, false⟩

structure MqttConnection where
  url : String
  topics : List String
  client : String

structure NewSubscription where
  topic : String
  expireTime : Nat

structure SubscriptionExt where
  mqttConnections : List MqttConnection
  newSubscriptions : List (String × NewSubscription)

structure RegisterResponse where
  extensions : Option SubscriptionExt
  data : JSValue
  errors : Option (List String)

/-- `register({documentAST, variables, context})` (lines 177-246).  The
fresh `uuid()` topic id, the engine's answer to the eager subscribe
attempt, the current wall-clock time and the broker URL are passed in as
parameters.  On engine errors it answers
`{errors: context.appsyncErrors || asyncIterator.errors, data:
asyncIterator.data || null}` and leaves the state untouched; on success it
appends the new registration (already `isRegistered`), arms the liveness
timer keyed by clientId, and returns the handshake. -/
def register (st : ServerState) (ctx : Context) (vs : List (String × JSValue))
    (topicId : String) (engine : EngineResult) (now : Nat) (mqttURL : String) :
    RegisterResponse × ServerState :=
  match engine with
  | .errs errors data =>
    ({ extensions := none,
       data := if jsTruthy data then data else .null,
       errors := some (ctx.appsyncErrors.getD errors) }, st)
  | .stream evs =>
    let reg : Registration :=
      ⟨topicId, vs, true, ⟨evs, 0, false, st.nextGen⟩⟩
    let currentRegistrations := (lookupAssoc st.registrations ctx.jwtSub).getD [] ++ [reg]
    let regs' := setAssoc st.registrations ctx.jwtSub currentRegistrations
    let timers' :=
      setAssoc st.iteratorTimeout ctx.jwtSub ⟨topicId, st.nextGen, ConnectTimeout, true⟩
    let st' : ServerState := ⟨regs', timers', st.nextGen + 1⟩
    let conn : MqttConnection :=
      ⟨mqttURL, currentRegistrations.map (fun r => r.topicId), ctx.jwtSub⟩
    let ext : SubscriptionExt := ⟨[conn], [(topicId, ⟨topicId, now + TopicExpires⟩)]⟩
    (⟨some ext, .null, none⟩, st')

inductive BrokerEvent where
  | connect (clientId : String)
  | subscribed (topic clientId : String) (engine : EngineResult)
  | unsubscribed (topic clientId : String)
  | disconnect (clientId : String)
  | timeout (clientId : String)

def step (st : ServerState) : BrokerEvent → StepOut
  | .connect c => onClientConnect st c
  | .subscribed t c e => onClientSubscribed st t c e
  | .unsubscribed t c => onClientUnsubscribed st t c
  | .disconnect c => onClientDisconnect st c
  | .timeout c => fireTimeout st c

/-- Run a sequence of broker lifecycle / timer events, collecting every
publish issued along the way. -/
def runTrace (st : ServerState) : List BrokerEvent → ServerState × List Publish
  | [] => (st, [])
  | e :: rest =>
    let out := step st e
    let r := runTrace out.state rest
    (r.1, out.publishes ++ r.2)

def isSubscribedFor (t : String) : BrokerEvent → Bool
  | .subscribed tp _ _ => tp == t
  | _ => false

/-- A sample event `{data: {onCreate: {id: "1"}}}`. -/
def sampleEvent1 : JSValue := .obj [("data", .obj [("onCreate", .obj [("id", .str "1")])])]

/-- A sample event `{data: {onCreate: {id: "2"}}}`. -/
def sampleEvent2 : JSValue := .obj [("data", .obj [("onCreate", .obj [("id", .str "2")])])]

def emptyState : ServerState := ⟨[], [], 0⟩

/-- State after `register` for client `"c"` with empty variables, topic
`"t"`, one pending event. -/
def sampleRegistered : ServerState :=
  (register emptyState ⟨"c", none⟩ [] "t" (.stream [sampleEvent1]) 1000 "ws://localhost:0/").2

/-- State and output after the broker then reports `subscribed` for `"t"`. -/
def sampleFirstSub : StepOut :=
  step sampleRegistered (.subscribed "t" "c" (.stream []))

example : sampleFirstSub.publishes = [⟨"t", sampleEvent1, 0, false⟩] := rfl
example : sampleFirstSub.enteredLoop = true := rfl
example : (findReg sampleFirstSub.state "c" "t").map (fun r => r.isRegistered) = some true := rfl
example :
    (register emptyState ⟨"c", none⟩ [("id", .str "2")] "t"
      (.stream [sampleEvent1, sampleEvent2]) 1000 "u").1.extensions =
    some ⟨[⟨"u", ["t"], "c"⟩], [("t", ⟨"t", 1000 + TopicExpires⟩)]⟩ := rfl
example :
    (step (register emptyState ⟨"c", none⟩ [("id", .str "2")] "t"
        (.stream [sampleEvent1, sampleEvent2]) 1000 "u").2
      (.subscribed "t" "c" (.stream []))).publishes = [⟨"t", sampleEvent2, 0, false⟩] := rfl

/-! Helper lemmas about the assoc-list store and the consumption loop. -/

theorem lookupAssoc_setAssoc_self {α : Type} (m : List (String × α)) (k : String) (v : α) :
    lookupAssoc (setAssoc m k v) k = some v := by
  induction m with
  | nil => simp [setAssoc, lookupAssoc]
  | cons kv rest ih =>
    obtain ⟨k', v'⟩ := kv
    by_cases h : k' = k
    · simp [setAssoc, h, lookupAssoc]
    · simp [setAssoc, h, lookupAssoc, ih]

theorem setAssoc_self {α : Type} (m : List (String × α)) (k : String) (v : α)
    (h : lookupAssoc m k = some v) : setAssoc m k v = m := by
  induction m with
  | nil => simp [lookupAssoc] at h
  | cons kv rest ih =>
    obtain ⟨k', v'⟩ := kv
    by_cases hk : k' = k
    · simp only [lookupAssoc, if_pos hk, Option.some.injEq] at h
      simp [setAssoc, hk, h]
    · simp only [lookupAssoc, if_neg hk] at h
      simp [setAssoc, hk, ih h]

theorem find?_replaceFirst {α : Type} (p : α → Bool) (b : α) (hb : p b = true) :
    ∀ (l : List α) (a : α), l.find? p = some a →
      (replaceFirst p b l).find? p = some b := by
  intro l
  induction l with
  | nil => intro a h; simp [List.find?] at h
  | cons y ys ih =>
    intro a h
    by_cases hy : p y = true
    · simp [replaceFirst, hy, List.find?_cons_of_pos _ hb]
    · rw [List.find?_cons_of_neg _ (by simp [hy])] at h
      simp only [replaceFirst, hy, if_false, Bool.false_eq_true]
      rw [List.find?_cons_of_neg _ (by simp [hy])]
      exact ih a h

theorem replaceFirst_self {α : Type} (p : α → Bool) :
    ∀ (l : List α) (a : α), l.find? p = some a → replaceFirst p a l = l := by
  intro l
  induction l with
  | nil => intro a h; simp [List.find?] at h
  | cons y ys ih =>
    intro a h
    by_cases hy : p y = true
    · rw [List.find?_cons_of_pos _ hy] at h
      obtain rfl : y = a := by injection h
      simp [replaceFirst, hy]
    · rw [List.find?_cons_of_neg _ (by simp [hy])] at h
      simp only [replaceFirst, hy, if_false, Bool.false_eq_true]
      rw [ih a h]

theorem drainAux_topic (vs : List (String × JSValue)) (tp : String) :
    ∀ (l : List JSValue), ∀ pub ∈ (drainAux vs tp l).pubs, pub.topic = tp := by
  intro l
  induction l with
  | nil => intro pub h; simp [drainAux] at h
  | cons p rest ih =>
    intro pub h
    cases hf : shouldPublishSubscription p vs with
    | error e => simp [drainAux, hf] at h
    | ok b =>
      cases b with
      | false =>
        simp only [drainAux, hf] at h
        exact ih pub h
      | true =>
        simp only [drainAux, hf, List.mem_cons] at h
        rcases h with h | h
        · rw [h]
        · exact ih pub h

theorem drainAux_pass (vs : List (String × JSValue)) (tp : String) :
    ∀ (l : List JSValue), ∀ pub ∈ (drainAux vs tp l).pubs,
      shouldPublishSubscription pub.payload vs = .ok true := by
  intro l
  induction l with
  | nil => intro pub h; simp [drainAux] at h
  | cons p rest ih =>
    intro pub h
    cases hf : shouldPublishSubscription p vs with
    | error e => simp [drainAux, hf] at h
    | ok b =>
      cases b with
      | false =>
        simp only [drainAux, hf] at h
        exact ih pub h
      | true =>
        simp only [drainAux, hf, List.mem_cons] at h
        rcases h with h | h
        · rw [h]; exact hf
        · exact ih pub h

theorem updateReg_nextGen (st : ServerState) (c t : String) (r : Registration) :
    (updateReg st c t r).nextGen = st.nextGen := by
  unfold updateReg
  split <;> rfl

theorem findReg_updateReg (st : ServerState) (c t : String) (regs : List Registration)
    (reg reg' : Registration)
    (hl : lookupAssoc st.registrations c = some regs)
    (hfind : regs.find? (fun r => r.topicId == t) = some reg)
    (ht : reg'.topicId = t) :
    findReg (updateReg st c t reg') c t = some reg' := by
  unfold updateReg
  rw [hl]
  unfold findReg
  simp only [lookupAssoc_setAssoc_self]
  exact find?_replaceFirst _ _ (by simp [ht]) _ _ hfind

theorem updateReg_self (st : ServerState) (c t : String) (regs : List Registration)
    (reg : Registration)
    (hl : lookupAssoc st.registrations c = some regs)
    (hfind : regs.find? (fun r => r.topicId == t) = some reg) :
    updateReg st c t reg = st := by
  unfold updateReg
  simp only [hl]
  rw [replaceFirst_self _ _ _ hfind, setAssoc_self _ _ _ hl]

theorem runLoop_publishes (st : ServerState) (c : String) (reg : Registration) :
    ∀ pub ∈ (runLoop st c reg).publishes, pub.topic = reg.topicId := by
  intro pub h
  exact drainAux_topic reg.vars reg.topicId _ pub h

theorem onClientSubscribed_publishes (st : ServerState) (t c : String) (eng : EngineResult) :
    ∀ pub ∈ (onClientSubscribed st t c eng).publishes, pub.topic = t := by
  intro pub h
  unfold onClientSubscribed at h
  split at h
  · simp at h
  · split at h
    · simp at h
    · rename_i regs _ reg hfind
      have hp := List.find?_some hfind
      have ht : reg.topicId = t := by simpa using hp
      split at h
      · rw [← ht]
        exact runLoop_publishes _ _ _ pub h
      · split at h
        · simp at h
        · have h2 := runLoop_publishes _ _ _ pub h
          rw [h2, ← ht]

theorem step_no_publish (st : ServerState) (e : BrokerEvent) (t : String)
    (he : isSubscribedFor t e = false) :
    ∀ pub ∈ (step st e).publishes, pub.topic ≠ t := by
  intro pub h
  cases e with
  | connect c =>
    simp [step, onClientConnect] at h
  | subscribed tp c eng =>
    simp only [step] at h
    have h2 := onClientSubscribed_publishes st tp c eng pub h
    simp only [isSubscribedFor, beq_eq_false_iff_ne, ne_eq] at he
    rw [h2]
    exact he
  | unsubscribed tp c =>
    simp [step, onClientUnsubscribed] at h
  | disconnect c =>
    simp [step, onClientDisconnect] at h
  | timeout c =>
    simp [step, fireTimeout] at h

theorem runTrace_no_publish (t : String) :
    ∀ (trace : List BrokerEvent) (st : ServerState),
      (∀ e ∈ trace, isSubscribedFor t e = false) →
      ∀ pub ∈ (runTrace st trace).2, pub.topic ≠ t := by
  intro trace
  induction trace with
  | nil => intro st _ pub h; simp [runTrace] at h
  | cons e rest ih =>
    intro st hall pub h
    simp only [runTrace] at h
    rw [List.mem_append] at h
    rcases h with h | h
    · exact step_no_publish st e t (hall e (List.mem_cons_self e rest)) pub h
    · exact ih (step st e).state (fun e' he' => hall e' (List.mem_cons_of_mem e he')) pub h

theorem jsEvery_ok {α : Type} (f : α → Except JSError Bool) (g : α → Bool) :
    ∀ (l : List α), (∀ x ∈ l, f x = .ok (g x)) → jsEvery f l = .ok (l.all g) := by
  intro l
  induction l with
  | nil => intro _; simp [jsEvery, List.all]
  | cons x xs ih =>
    intro h
    have hx := h x (List.mem_cons_self x xs)
    simp only [jsEvery, hx]
    cases hg : g x with
    | false => simp [List.all_cons, hg]
    | true =>
      simp only [List.all_cons, hg, Bool.true_and]
      exact ih (fun y hy => h y (List.mem_cons_of_mem x hy))

/-!
Claims about the event filter.
-/

/-- C10: the event filter is not total over events with a non-null payload
body: with a non-empty bound-variables map, `shouldPublishSubscription`
throws a `TypeError` — instead of returning `false` — when the payload
body is an empty object (`Object.entries(payload.data)[0]` is `undefined`
and `.pop()` throws), and when the first top-level field's value is `null`
or `undefined` (`payloadData[variableKey]` throws). -/
theorem claim_C10 :
    shouldPublishSubscription (.obj [("data", .obj [])]) [("id", .num 1)]
      = .error .typeError ∧
    shouldPublishSubscription (.obj [("data", .obj [("onCreate", .null)])]) [("id", .num 1)]
      = .error .typeError ∧
    shouldPublishSubscription (.obj [("data", .obj [("onCreate", .undefined)])]) [("id", .num 1)]
      = .error .typeError :=
  ⟨rfl, rfl, rfl⟩

/-- C6: `shouldPublishSubscription` returns `false` for a `null` event and
for an event whose payload body (`data` field) is `null`, for every
bound-variables map; and every payload published by the consumption loop
passed the filter with `ok true`, so no such event is ever published. -/
theorem claim_C6 :
    (∀ vs : List (String × JSValue), shouldPublishSubscription .null vs = .ok false) ∧
    (∀ (vs fs : List (String × JSValue)),
      lookupAssoc fs "data" = some .null →
      shouldPublishSubscription (.obj fs) vs = .ok false) ∧
    (∀ (vs : List (String × JSValue)) (tp : String) (evs : List JSValue),
      ∀ pub ∈ (drainAux vs tp evs).pubs,
        shouldPublishSubscription pub.payload vs = .ok true) := by
  refine ⟨fun vs => rfl, fun vs fs h => ?_, drainAux_pass⟩
  unfold shouldPublishSubscription
  rw [show jsEqNull (JSValue.obj fs) = false from rfl,
      show isObjectType (JSValue.obj fs) = true from rfl,
      show getPropTotal (JSValue.obj fs) "data" = (lookupAssoc fs "data").getD .undefined from rfl,
      h]
  rfl

/-- C6 witness at concrete inputs: the null event, one event with a `null`
payload body among other fields, and one publish produced by the loop. -/
theorem claim_C6_witness :
    shouldPublishSubscription .null [("id", .num 7)] = .ok false ∧
    shouldPublishSubscription (.obj [("x", .num 1), ("data", .null)]) [("id", .num 7)] = .ok false ∧
    shouldPublishSubscription (Publish.payload ⟨"t", sampleEvent1, 0, false⟩) [] = .ok true :=
  ⟨claim_C6.1 [("id", .num 7)],
   claim_C6.2.1 [("id", .num 7)] [("x", .num 1), ("data", .null)] rfl,
   claim_C6.2.2 [] "t" [sampleEvent1] ⟨"t", sampleEvent1, 0, false⟩
     (List.mem_singleton.mpr rfl)⟩

/-- C7: whenever the event carries a payload body (its `data` field is
neither `null` nor `undefined`) and the bound-variables map is empty,
`shouldPublishSubscription` returns `true` regardless of the body's
contents. -/
theorem claim_C7 (fs : List (String × JSValue))
    (h : jsEqNull (getPropTotal (.obj fs) "data") = false) :
    shouldPublishSubscription (.obj fs) [] = .ok true := by
  unfold shouldPublishSubscription
  rw [show jsEqNull (JSValue.obj fs) = false from rfl,
      show isObjectType (JSValue.obj fs) = true from rfl, h]
  rfl

/-- C7 witness at a concrete event with a payload body. -/
theorem claim_C7_witness :
    shouldPublishSubscription (.obj [("data", .obj [("onDelete", .bool true)])]) [] = .ok true :=
  claim_C7 [("data", .obj [("onDelete", .bool true)])] rfl

/-- C3 counterexample: the event `{data: {onCreate: null}}` has a
non-empty object payload body, and the bound-variables map `{id: "x"}` is
non-empty with a mismatching pair (a `null` field has no sub-value equal
to `"x"`), so the claim demands the return value `false`; the code
instead throws a `TypeError`, returning neither `true` nor `false`. -/
theorem claim_C3_counterexample :
    shouldPublishSubscription (.obj [("data", .obj [("onCreate", .null)])]) [("id", .str "x")]
      = .error .typeError :=
  rfl

/-- C3 (amended): for every event whose payload body is a non-empty object
whose FIRST top-level field has a non-nullish value, and every non-empty
bound-variables map (with no `undefined` values — `undefined`-valued
variables would compare against inherited prototype members, which this
value universe does not carry), the filter inspects only that first field
and returns `true` iff every `(key, value)` pair of the map has the
field's sub-value at `key` strictly equal to `value`, else `false`.  When
the first field's value is nullish the filter instead throws (see the
counterexample and C10). -/
theorem claim_C3_amended (k : String) (v0 : JSValue)
    (rest vs : List (String × JSValue))
    (hne : vs ≠ [])
    (hv0 : jsEqNull v0 = false)
    (hundef : ∀ p ∈ vs, p.2 ≠ JSValue.undefined) :
    shouldPublishSubscription (.obj [("data", .obj ((k, v0) :: rest))]) vs
      = .ok (vs.all (fun p => strictEq (getPropTotal v0 p.1) p.2)) := by
  have hgp : ∀ key : String, getProp v0 key = .ok (getPropTotal v0 key) := by
    intro key
    cases v0 <;> first | rfl | simp [jsEqNull] at hv0
  cases vs with
  | nil => exact absurd rfl hne
  | cons p vrest =>
    unfold shouldPublishSubscription
    rw [show jsEqNull (JSValue.obj [("data", JSValue.obj ((k, v0) :: rest))]) = false from rfl,
        show isObjectType (JSValue.obj [("data", JSValue.obj ((k, v0) :: rest))]) = true from rfl,
        show getPropTotal (JSValue.obj [("data", JSValue.obj ((k, v0) :: rest))]) "data"
          = JSValue.obj ((k, v0) :: rest) from rfl,
        show jsEqNull (JSValue.obj ((k, v0) :: rest)) = false from rfl]
    simp only [Bool.false_and, Bool.and_false, Bool.false_or, Bool.or_false, if_false,
      List.isEmpty_cons, Bool.false_eq_true, jsEntries, List.head?_cons]
    refine jsEvery_ok _ _ _ ?_
    intro x _
    rw [hgp x.1]

/-- C3 amended-claim witness: a matching and a mismatching concrete pair. -/
theorem claim_C3_amended_witness :
    shouldPublishSubscription
        (.obj [("data", .obj [("onCreate", .obj [("id", .str "2")])])])
        [("id", .str "2")] = .ok true ∧
    shouldPublishSubscription
        (.obj [("data", .obj [("onCreate", .obj [("id", .str "2")])])])
        [("id", .str "9")] = .ok false := by
  constructor
  · have h := claim_C3_amended "onCreate" (.obj [("id", .str "2")]) []
      [("id", .str "2")] (by simp) rfl
      (by intro p hp; simp at hp; rw [hp]; simp)
    simpa using h
  · have h := claim_C3_amended "onCreate" (.obj [("id", .str "2")]) []
      [("id", .str "9")] (by simp) rfl
      (by intro p hp; simp at hp; rw [hp]; simp)
    simpa using h

/-!
Claims about `register` and the dispatch controller.
-/

/-- C2: when the eager stream-creation attempt yields engine-level errors
instead of an event stream, `register` answers with an error response — no
handshake (`extensions = none`), errors taken from the engine attempt
(`context.appsyncErrors || asyncIterator.errors`), data
`asyncIterator.data || null` — and returns the server state completely
unchanged: no registration inserted, no liveness timer armed. -/
theorem claim_C2 (st : ServerState) (ctx : Context) (vs : List (String × JSValue))
    (topicId : String) (errors : List String) (data : JSValue) (now : Nat) (url : String) :
    register st ctx vs topicId (.errs errors data) now url
      = (⟨none, if jsTruthy data then data else .null,
          some (ctx.appsyncErrors.getD errors)⟩, st) :=
  rfl

/-- C8: a successful `register` returns a handshake carrying the broker
URL, the client's full ordered topic list (existing topics in registration
order, then the new one), and the new topic with advisory expiry
`now + TopicExpires`; it arms the client's liveness timer with delay
`ConnectTimeout`; and the constants are 100 minutes and 2 minutes in
milliseconds. -/
theorem claim_C8 (st : ServerState) (ctx : Context) (vs : List (String × JSValue))
    (topicId : String) (evs : List JSValue) (now : Nat) (url : String) :
    (register st ctx vs topicId (.stream evs) now url).1.extensions
      = some ⟨[⟨url,
          (((lookupAssoc st.registrations ctx.jwtSub).getD []).map (fun r => r.topicId))
            ++ [topicId], ctx.jwtSub⟩],
          [(topicId, ⟨topicId, now + TopicExpires⟩)]⟩ ∧
    (register st ctx vs topicId (.stream evs) now url).1.errors = none ∧
    lookupAssoc (register st ctx vs topicId (.stream evs) now url).2.iteratorTimeout ctx.jwtSub
      = some ⟨topicId, st.nextGen, ConnectTimeout, true⟩ ∧
    TopicExpires = 6000000 ∧ ConnectTimeout = 120000 := by
  refine ⟨?_, rfl, ?_, rfl, rfl⟩
  · simp [register]
  · exact lookupAssoc_setAssoc_self _ _ _

/-- C9: a `subscribed` or `unsubscribed` broker event whose
`(clientIdentity, topicIdentity)` pair has no matching registration is a
complete no-op: same state (store, timers, streams), no publishes, no
error, no consumption loop entered. -/
theorem claim_C9 (st : ServerState) (t c : String) (eng : EngineResult)
    (h : findReg st c t = none) :
    onClientSubscribed st t c eng = ⟨st, [], false, false⟩ ∧
    onClientUnsubscribed st t c = ⟨st, [], false, false⟩ := by
  unfold findReg at h
  cases hl : lookupAssoc st.registrations c with
  | none =>
    constructor
    · unfold onClientSubscribed; simp only [hl]
    · unfold onClientUnsubscribed unsubscribeState; simp only [hl]
  | some regs =>
    simp only [hl] at h
    constructor
    · unfold onClientSubscribed; simp only [hl, h]
    · unfold onClientUnsubscribed unsubscribeState; simp only [hl, h]

/-- C9 witness: unknown pair on the empty store. -/
theorem claim_C9_witness :
    onClientSubscribed emptyState "t" "c" (.stream []) = ⟨emptyState, [], false, false⟩ ∧
    onClientUnsubscribed emptyState "t" "c" = ⟨emptyState, [], false, false⟩ :=
  claim_C9 emptyState "t" "c" (.stream []) rfl

/-- C1 counterexample: after `register` and a first `subscribed` event for
`("c", "t")` the registration is Active (`isRegistered = true`), yet a
second `subscribed` event for the same pair is not the claimed no-op: the
handler re-enters the consumption loop on the registration's stream
(`enteredLoop = true`) instead of returning early — the `!reg.isRegistered`
check guards only stream creation, not the loop. -/
theorem claim_C1_counterexample :
    (findReg sampleFirstSub.state "c" "t").map (fun r => r.isRegistered) = some true ∧
    (step sampleFirstSub.state (.subscribed "t" "c" (.stream []))).enteredLoop = true :=
  ⟨rfl, rfl⟩

/-- C1 (amended): a second `subscribed` event while the registration is
Active performs no second `Pending → Active` transition and creates no new
event stream — `isRegistered` stays `true`, the stream object (generation,
event list, closed flag) is kept and no fresh stream generation is
allocated — and when the stream is already closed or exhausted it
publishes nothing and leaves the state unchanged; the handler does,
however, re-enter the drain loop on the existing stream (`enteredLoop`)
rather than returning early. -/
theorem claim_C1_amended (st : ServerState) (c t : String) (reg : Registration)
    (eng : EngineResult)
    (hf : findReg st c t = some reg) (hr : reg.isRegistered = true) :
    (onClientSubscribed st t c eng).enteredLoop = true ∧
    (findReg (onClientSubscribed st t c eng).state c t).map
        (fun r => (r.isRegistered, r.asyncIterator.gen, r.asyncIterator.events,
          r.asyncIterator.closed))
      = some (true, reg.asyncIterator.gen, reg.asyncIterator.events,
          reg.asyncIterator.closed) ∧
    (onClientSubscribed st t c eng).state.nextGen = st.nextGen ∧
    (reg.asyncIterator.closed = true ∨
        reg.asyncIterator.events.length ≤ reg.asyncIterator.pos →
      (onClientSubscribed st t c eng).publishes = [] ∧
        (onClientSubscribed st t c eng).state = st) := by
  unfold findReg at hf
  cases hl : lookupAssoc st.registrations c with
  | none => simp only [hl] at hf; exact Option.noConfusion hf
  | some regs =>
    simp only [hl] at hf
    have hp := List.find?_some hf
    have ht : reg.topicId = t := by simpa using hp
    subst ht
    have hout : onClientSubscribed st reg.topicId c eng = runLoop st c reg := by
      unfold onClientSubscribed
      simp [hl, hf, hr]
    rw [hout]
    refine ⟨rfl, ?_, ?_, ?_⟩
    · simp only [runLoop]
      rw [findReg_updateReg st c reg.topicId regs reg
        { reg with asyncIterator := { reg.asyncIterator with
            pos := reg.asyncIterator.pos + (drainAux reg.vars reg.topicId
              (if reg.asyncIterator.closed then []
                else reg.asyncIterator.events.drop reg.asyncIterator.pos)).consumed } }
        hl hf rfl]
      simp [hr]
    · simp only [runLoop]
      exact updateReg_nextGen _ _ _ _
    · intro hex
      have hrem : (if reg.asyncIterator.closed then ([] : List JSValue)
          else reg.asyncIterator.events.drop reg.asyncIterator.pos) = [] := by
        rcases hex with hc | hlen
        · simp [hc]
        · rw [List.drop_eq_nil_of_le hlen]
          exact ite_self []
      constructor
      · simp only [runLoop]
        rw [hrem]
        rfl
      · simp only [runLoop]
        rw [hrem]
        exact updateReg_self st c reg.topicId regs reg hl hf

/-- C1 amended-claim witness: the concrete double-subscribe scenario; the
stream is exhausted after the first `subscribed`, so the second publishes
nothing and changes nothing. -/
theorem claim_C1_witness :
    (onClientSubscribed sampleFirstSub.state "t" "c" (.stream [])).enteredLoop = true ∧
    (onClientSubscribed sampleFirstSub.state "t" "c" (.stream [])).publishes = [] ∧
    (onClientSubscribed sampleFirstSub.state "t" "c" (.stream [])).state
      = sampleFirstSub.state := by
  have h := claim_C1_amended sampleFirstSub.state "c" "t"
    ⟨"t", [], true, ⟨[sampleEvent1], 1, false, 0⟩⟩ (.stream []) rfl rfl
  have hex := h.2.2.2 (Or.inr (by simp))
  exact ⟨h.1, hex.1, hex.2⟩

theorem lookupAssoc_updateReg (st : ServerState) (c t : String) (r : Registration)
    (regs : List Registration)
    (hl : lookupAssoc st.registrations c = some regs) :
    lookupAssoc (updateReg st c t r).registrations c
      = some (replaceFirst (fun x => x.topicId == t) r regs) := by
  unfold updateReg
  simp only [hl]
  exact lookupAssoc_setAssoc_self _ _ _

/-- C5: an `unsubscribed` event for a stored registration publishes
nothing, throws nothing, requests graceful cancellation of its stream
(`closed`), and keeps the registration in the store in a Suspended state
(`isRegistered = false`); and from any state in which a suspended
registration is found for `(clientIdentity, topicIdentity)`, a later
`subscribed` event restarts a fresh event stream and resumes delivery to
the same `topicIdentity` with the registration's stored variables — no new
`register` call involved. -/
theorem claim_C5 (st : ServerState) (c t : String) (reg : Registration)
    (hf : findReg st c t = some reg) :
    (onClientUnsubscribed st t c).publishes = [] ∧
    (onClientUnsubscribed st t c).errored = false ∧
    findReg (onClientUnsubscribed st t c).state c t
      = some { reg with
          asyncIterator := { reg.asyncIterator with closed := true },
          isRegistered := false } ∧
    (∀ (st' : ServerState) (regS : Registration) (evs : List JSValue),
      findReg st' c t = some regS → regS.isRegistered = false →
      (onClientSubscribed st' t c (.stream evs)).enteredLoop = true ∧
      (onClientSubscribed st' t c (.stream evs)).publishes
        = (drainAux regS.vars regS.topicId evs).pubs ∧
      (findReg (onClientSubscribed st' t c (.stream evs)).state c t).map
          (fun r => (r.isRegistered, r.asyncIterator.events, r.asyncIterator.closed, r.vars))
        = some (true, evs, false, regS.vars)) := by
  unfold findReg at hf
  cases hl : lookupAssoc st.registrations c with
  | none => simp only [hl] at hf; exact Option.noConfusion hf
  | some regs =>
    simp only [hl] at hf
    have hp := List.find?_some hf
    have ht : reg.topicId = t := by simpa using hp
    subst ht
    refine ⟨rfl, rfl, ?_, ?_⟩
    · show findReg (unsubscribeState st reg.topicId c) c reg.topicId = some _
      unfold unsubscribeState
      simp only [hl, hf]
      exact findReg_updateReg st c reg.topicId regs reg
        { reg with
          asyncIterator := { reg.asyncIterator with closed := true },
          isRegistered := false } hl hf rfl
    · intro st' regS evs hfS hS
      unfold findReg at hfS
      cases hl' : lookupAssoc st'.registrations c with
      | none => simp only [hl'] at hfS; exact Option.noConfusion hfS
      | some regsB =>
        simp only [hl'] at hfS
        obtain ⟨tS, vS, rSb, iS⟩ := regS
        have hpS := List.find?_some hfS
        have htS : tS = reg.topicId := by simpa using hpS
        subst htS
        have hSb : rSb = false := hS
        subst hSb
        have hout2 : onClientSubscribed st' reg.topicId c (.stream evs)
            = runLoop
                { updateReg st' c reg.topicId
                    ⟨reg.topicId, vS, true, ⟨evs, 0, false, st'.nextGen⟩⟩ with
                  nextGen := st'.nextGen + 1 } c
                ⟨reg.topicId, vS, true, ⟨evs, 0, false, st'.nextGen⟩⟩ := by
          unfold onClientSubscribed
          simp only [hl', hfS]
          rfl
        refine ⟨?_, ?_, ?_⟩
        · rw [hout2]; rfl
        · rw [hout2]; rfl
        · have hres : findReg (onClientSubscribed st' reg.topicId c
              (.stream evs)).state c reg.topicId
              = some ⟨reg.topicId, vS, true,
                  ⟨evs, 0 + (drainAux vS reg.topicId evs).consumed, false, st'.nextGen⟩⟩ := by
            rw [hout2]
            exact findReg_updateReg _ c reg.topicId _
              ⟨reg.topicId, vS, true, ⟨evs, 0, false, st'.nextGen⟩⟩ _
              (lookupAssoc_updateReg st' c reg.topicId
                ⟨reg.topicId, vS, true, ⟨evs, 0, false, st'.nextGen⟩⟩ regsB hl')
              (find?_replaceFirst _ _ (by simp) regsB _ hfS) rfl
          rw [hres]
          rfl

/-- C5 witness: concrete unsubscribe-then-resubscribe on the registered
topic; the fresh stream's event is delivered to the same topic. -/
theorem claim_C5_witness :
    (onClientUnsubscribed sampleFirstSub.state "t" "c").publishes = [] ∧
    (onClientSubscribed (onClientUnsubscribed sampleFirstSub.state "t" "c").state "t" "c"
        (.stream [sampleEvent2])).publishes = (drainAux [] "t" [sampleEvent2]).pubs ∧
    (findReg (onClientSubscribed (onClientUnsubscribed sampleFirstSub.state "t" "c").state
        "t" "c" (.stream [sampleEvent2])).state "c" "t").map
        (fun r => (r.isRegistered, r.asyncIterator.events, r.asyncIterator.closed, r.vars))
      = some (true, [sampleEvent2], false, []) := by
  have h := claim_C5 sampleFirstSub.state "c" "t"
    ⟨"t", [], true, ⟨[sampleEvent1], 1, false, 0⟩⟩ rfl
  have h4 := h.2.2.2 (onClientUnsubscribed sampleFirstSub.state "t" "c").state
    ⟨"t", [], false, ⟨[sampleEvent1], 1, true, 0⟩⟩ [sampleEvent2] rfl rfl
  exact ⟨h.1, h4.2.1, h4.2.2⟩

/-- State with a second registration (topic `"u"`) for the same client. -/
def sampleTwoRegs : ServerState :=
  (register sampleRegistered ⟨"c", none⟩ [] "u" (.stream [sampleEvent2]) 0 "w").2

/-- C4: two halves of the liveness guarantee.  (i) When the armed,
uncleared liveness timer fires for a client and the registration for the
timer's topic still holds the captured iterator generation, the
registration's event stream is cancelled (closed).  (ii) Publishing to a
topic happens only while handling a `subscribed` broker event for that
very topic, so along any event trace that contains no `subscribed` event
for the registration's topic — in particular when `subscribed` never
arrives — not a single event is ever published to it. -/
theorem claim_C4 :
    (∀ (st : ServerState) (c : String) (tm : TimerEntry) (reg : Registration),
      lookupAssoc st.iteratorTimeout c = some tm →
      tm.active = true →
      findReg st c tm.topicId = some reg →
      reg.asyncIterator.gen = tm.gen →
      (findReg (fireTimeoutState st c) c tm.topicId).map
          (fun r => r.asyncIterator.closed) = some true) ∧
    (∀ (t : String) (trace : List BrokerEvent) (st : ServerState),
      (∀ e ∈ trace, isSubscribedFor t e = false) →
      ∀ pub ∈ (runTrace st trace).2, pub.topic ≠ t) := by
  constructor
  · intro st c tm reg hlt hact hfr hgen
    have hfr1 : findReg { st with iteratorTimeout := setAssoc st.iteratorTimeout c { tm with active := false } } c tm.topicId = some reg := hfr
    have hstep : fireTimeoutState st c
        = updateReg { st with iteratorTimeout := setAssoc st.iteratorTimeout c { tm with active := false } } c tm.topicId
          { reg with asyncIterator := { reg.asyncIterator with closed := true } } := by
      unfold fireTimeoutState
      simp only [hlt]
      rw [if_pos hact]
      simp only [hfr1]
      rw [if_pos (show (reg.asyncIterator.gen == tm.gen) = true by simp [hgen])]
    rw [hstep]
    unfold findReg at hfr
    cases hl : lookupAssoc st.registrations c with
    | none => simp only [hl] at hfr; exact Option.noConfusion hfr
    | some regs =>
      simp only [hl] at hfr
      have hl1 : lookupAssoc ({ st with iteratorTimeout := setAssoc st.iteratorTimeout c { tm with active := false } } : ServerState).registrations c = some regs := hl
      have hp := List.find?_some hfr
      have htm : reg.topicId = tm.topicId := by simpa using hp
      rw [findReg_updateReg _ c tm.topicId regs reg
        { reg with asyncIterator := { reg.asyncIterator with closed := true } }
        hl1 hfr (by simp [htm])]
      rfl
  · exact fun t => runTrace_no_publish t

/-- C4 witness: the timer armed by `register` fires and closes the stream
of topic `"t"`; a trace whose only `subscribed` event is for the other
topic `"u"` publishes only to `"u"`, never to `"t"`. -/
theorem claim_C4_witness :
    (findReg (fireTimeoutState sampleRegistered "c") "c" "t").map
        (fun r => r.asyncIterator.closed) = some true ∧
    (⟨"u", sampleEvent2, 0, false⟩ : Publish).topic ≠ "t" := by
  constructor
  · exact claim_C4.1 sampleRegistered "c" ⟨"t", 0, ConnectTimeout, true⟩
      ⟨"t", [], true, ⟨[sampleEvent1], 0, false, 0⟩⟩ rfl rfl rfl rfl
  · exact claim_C4.2 "t" [.subscribed "u" "c" (.stream [])] sampleTwoRegs
      (by decide) ⟨"u", sampleEvent2, 0, false⟩ (List.mem_singleton.mpr rfl)
